import Mathlib

/-!
Shallow embedding of the encode-job supervisor of `mkv_compressor`
(`src/mkv_compressor/core/compressor.py`).

Conventions of the embedding:
* Python floats are modelled as `ℚ`.  Every claim below compares the very
  arithmetic expression the code computes with the expression the spec
  states, so exact rational arithmetic is faithful for these properties.
* Python regular-expression fragments are modelled by direct scanners.
  In the two patterns used by the code (`time=(\d+):(\d+):(\d+\.\d+)` and
  `speed=\s*([0-9.]+)x`) every `+`-repetition is over a character class
  disjoint from the character that follows it, so greedy scanning without
  backtracking is equivalent to the regex engine's search.  `\d` is
  modelled as an ASCII digit (the engine's diagnostic stream is ASCII).
* Exceptions are modelled by `Option`: a Python conversion that can raise
  (`float(...)`) becomes an `Option`-returning function, and the handlers
  of the source become the `none` branches.
-/

namespace MkvCompressor

/-- The `CompressionSettings` dataclass (compressor.py lines 21-45), with the
defaults of the source. -/
structure CompressionSettings where
  video_codec : String := "libx264"
  crf : Int := 23
  preset : String := "medium"
  audio_codec : String := "aac"
  audio_bitrate : String := "128k"
  width : Option Int := none
  height : Option Int := none
  scale_filter : Option String := none
  two_pass : Bool := false
  target_size : Option String := none
  max_bitrate : Option String := none
  container_format : String := "matroska"
  deriving DecidableEq, Repr

/-- The slice of `VideoInfo` (compressor.py lines 70-92) that the encode
job reads: only `duration` feeds progress computation; the remaining
fields are carried for fidelity of the probe result. -/
structure VideoInfo where
  duration : ℚ
  width : Int
  height : Int
  file_size : Int
  deriving DecidableEq, Repr

/-- A Python dict value as stored by `CompressionSettings.to_dict`. -/
inductive PyValue where
  | pyStr (s : String)
  | pyInt (i : Int)
  | pyBool (b : Bool)
  | pyNone
  deriving DecidableEq, Repr

/-- An `Optional[int]` field as a dict value. -/
def optIntVal : Option Int → PyValue
  | some i => PyValue.pyInt i
  | none => PyValue.pyNone

/-- An `Optional[str]` field as a dict value. -/
def optStrVal : Option String → PyValue
  | some s => PyValue.pyStr s
  | none => PyValue.pyNone

/-- The method `CompressionSettings.to_dict` (compressor.py lines 47-62): the twelve
keyed entries, in source order. -/
def to_dict (s : CompressionSettings) : List (String × PyValue) :=
  [("video_codec", PyValue.pyStr s.video_codec),
   ("crf", PyValue.pyInt s.crf),
   ("preset", PyValue.pyStr s.preset),
   ("audio_codec", PyValue.pyStr s.audio_codec),
   ("audio_bitrate", PyValue.pyStr s.audio_bitrate),
   ("width", optIntVal s.width),
   ("height", optIntVal s.height),
   ("scale_filter", optStrVal s.scale_filter),
   ("two_pass", PyValue.pyBool s.two_pass),
   ("target_size", optStrVal s.target_size),
   ("max_bitrate", optStrVal s.max_bitrate),
   ("container_format", PyValue.pyStr s.container_format)]

/-- Keyword parameters accepted by the `CompressionSettings` constructor. -/
def settingsKeys : List String :=
  ["video_codec", "crf", "preset", "audio_codec", "audio_bitrate",
   "width", "height", "scale_filter", "two_pass", "target_size",
   "max_bitrate", "container_format"]

/-- First binding of a key in a dict. -/
def lookupKey (d : List (String × PyValue)) (k : String) : Option PyValue :=
  (d.find? (fun kv => kv.1 == k)).map (fun kv => kv.2)

/-- Read a `str` parameter: an absent key takes the dataclass default, a
value of any other runtime type is not representable in the typed model. -/
def getStr (d : List (String × PyValue)) (k : String) (dflt : String) :
    Option String :=
  match lookupKey d k with
  | Option.none => some dflt
  | some (PyValue.pyStr s) => some s
  | some _ => none

/-- Read an `int` parameter (absent key takes the default). -/
def getInt (d : List (String × PyValue)) (k : String) (dflt : Int) :
    Option Int :=
  match lookupKey d k with
  | Option.none => some dflt
  | some (PyValue.pyInt i) => some i
  | some _ => none

/-- Read a `bool` parameter (absent key takes the default). -/
def getBool (d : List (String × PyValue)) (k : String) (dflt : Bool) :
    Option Bool :=
  match lookupKey d k with
  | Option.none => some dflt
  | some (PyValue.pyBool b) => some b
  | some _ => none

/-- Read an `Optional[int]` parameter (absent key takes the default,
`None` is a legal value). -/
def getOptInt (d : List (String × PyValue)) (k : String)
    (dflt : Option Int) : Option (Option Int) :=
  match lookupKey d k with
  | Option.none => some dflt
  | some (PyValue.pyInt i) => some (some i)
  | some PyValue.pyNone => some none
  | some _ => none

/-- Read an `Optional[str]` parameter (absent key takes the default,
`None` is a legal value). -/
def getOptStr (d : List (String × PyValue)) (k : String)
    (dflt : Option String) : Option (Option String) :=
  match lookupKey d k with
  | Option.none => some dflt
  | some (PyValue.pyStr s) => some (some s)
  | some PyValue.pyNone => some none
  | some _ => none

/-- The classmethod `CompressionSettings.from_dict` (compressor.py lines 64-67), i.e.
`cls(**data)`: a key outside the constructor's parameters is a
`TypeError` (modelled `none`); a missing key takes the dataclass default. -/
def from_dict (d : List (String × PyValue)) : Option CompressionSettings :=
  if d.all (fun kv => settingsKeys.contains kv.1) then do
    let vc ← getStr d "video_codec" "libx264"
    let crf ← getInt d "crf" 23
    let pre ← getStr d "preset" "medium"
    let ac ← getStr d "audio_codec" "aac"
    let ab ← getStr d "audio_bitrate" "128k"
    let w ← getOptInt d "width" none
    let h ← getOptInt d "height" none
    let sf ← getOptStr d "scale_filter" none
    let tp ← getBool d "two_pass" false
    let ts ← getOptStr d "target_size" none
    let mb ← getOptStr d "max_bitrate" none
    let cf ← getStr d "container_format" "matroska"
    pure { video_codec := vc, crf := crf, preset := pre, audio_codec := ac,
           audio_bitrate := ab, width := w, height := h, scale_filter := sf,
           two_pass := tp, target_size := ts, max_bitrate := mb,
           container_format := cf }
  else none

/-! ### Progress Parser (`_parse_ffmpeg_output`, compressor.py lines 537-595) -/

/-- Value of a digit run, as Python's `int` on a digit string. -/
def digitsToNat (ds : List Char) : Nat :=
  ds.foldl (fun n c => 10 * n + (c.toNat - '0'.toNat)) 0

/-- Greedy `\d+`: one or more ASCII digits, with the rest of the input. -/
def takeDigits1 (l : List Char) : Option (List Char × List Char) :=
  let ds := l.takeWhile Char.isDigit
  if ds.isEmpty then none else some (ds, l.drop ds.length)

/-- Match one literal character. -/
def expectChar (c : Char) : List Char → Option (List Char)
  | [] => none
  | x :: xs => if x = c then some xs else none

/-- Match a literal string, returning the rest of the input. -/
def matchLiteral : List Char → List Char → Option (List Char)
  | [], rest => some rest
  | _ :: _, [] => none
  | p :: ps, x :: xs => if x = p then matchLiteral ps xs else none

/-- Match `time=(\d+):(\d+):(\d+\.\d+)` anchored at the head of the input,
combining the groups as the source does:
`current_time = hours * 3600 + minutes * 60 + seconds`. -/
def matchTimeAt (l : List Char) : Option ℚ := do
  let r0 ← matchLiteral "time=".data l
  let (hs, r1) ← takeDigits1 r0
  let r2 ← expectChar ':' r1
  let (ms, r3) ← takeDigits1 r2
  let r4 ← expectChar ':' r3
  let (ss, r5) ← takeDigits1 r4
  let r6 ← expectChar '.' r5
  let (fs, _) ← takeDigits1 r6
  let seconds : ℚ := (digitsToNat ss : ℚ) + (digitsToNat fs : ℚ) / ((10 : ℚ) ^ fs.length)
  pure ((digitsToNat hs : ℚ) * 3600 + (digitsToNat ms : ℚ) * 60 + seconds)

/-- Search (leftmost match wins, as `re.search`) for the time pattern. -/
def searchTime : List Char → Option ℚ
  | [] => none
  | x :: xs =>
    match matchTimeAt (x :: xs) with
    | some t => some t
    | none => searchTime xs

/-- Python `float` restricted to the characters `[0-9.]` captured by the
speed group: raises (`none`) unless the fragment has at most one dot and
at least one digit. -/
def pyFloatOfChars (l : List Char) : Option ℚ :=
  if l.count '.' ≤ 1 ∧ l.any Char.isDigit ∧ l.all (fun c => c.isDigit || c = '.') then
    let intPart := l.takeWhile Char.isDigit
    let rest := l.drop intPart.length
    let frac := (rest.drop 1).takeWhile Char.isDigit
    some ((digitsToNat intPart : ℚ) + (digitsToNat frac : ℚ) / ((10 : ℚ) ^ frac.length))
  else none

/-- Match `speed=\s*([0-9.]+)x` anchored at the head, then convert the
group with Python `float` (which may raise, giving `none`). -/
def matchSpeedAt (l : List Char) : Option ℚ := do
  let r0 ← matchLiteral "speed=".data l
  let r1 := r0.dropWhile (fun c => c = ' ' || c = '\t')
  let grp := r1.takeWhile (fun c => c.isDigit || c = '.')
  if grp.isEmpty then none
  else do
    let _ ← expectChar 'x' (r1.drop grp.length)
    pyFloatOfChars grp

/-- Search (leftmost match wins, as `re.search`) for the speed pattern. -/
def searchSpeed : List Char → Option ℚ
  | [] => none
  | x :: xs =>
    match matchSpeedAt (x :: xs) with
    | some v => some v
    | none => searchSpeed xs

/-- A parsed progress sample: media offset in seconds, optional speed
multiplier (§4.3 of the spec; the code's `current_time` and `speed`). -/
structure ParsedSample where
  current : ℚ
  speed : Option ℚ
  deriving DecidableEq, Repr

/-- The Progress Parser as a pure function on one diagnostic line: a
timestamp sample when the time pattern occurs, with the speed multiplier
when its pattern also parses (a malformed speed fragment is swallowed by
the source's `except (ValueError, AttributeError)` handler). -/
def parse_line (line : String) : Option ParsedSample :=
  match searchTime line.data with
  | some t => some { current := t, speed := searchSpeed line.data }
  | none => none

/-- Python `min(a, b)`: the first argument on ties. -/
def pyMin (a b : ℚ) : ℚ := if a ≤ b then a else b

/-- Python `max(a, b)`: the first argument on ties. -/
def pyMax (a b : ℚ) : ℚ := if b ≤ a then a else b

/-- The clamp `max(0, min(99, x))` of compressor.py lines 573-575. -/
def pyClamp (x : ℚ) : ℚ := pyMax 0 (pyMin 99 x)

theorem pyMin_eq_min (a b : ℚ) : pyMin a b = min a b := by
  unfold pyMin
  split
  · exact (min_eq_left (by assumption)).symm
  · exact (min_eq_right (le_of_not_le (by assumption))).symm

theorem pyMax_eq_max (a b : ℚ) : pyMax a b = max a b := by
  unfold pyMax
  split
  · exact (max_eq_left (by assumption)).symm
  · exact (max_eq_right (le_of_not_le (by assumption))).symm

/-- The clamp agrees with the lattice formulation. -/
theorem pyClamp_eq (x : ℚ) : pyClamp x = max 0 (min 99 x) := by
  rw [pyClamp, pyMax_eq_max, pyMin_eq_min]

/-- The two-pass rescaling of compressor.py lines 560-570 applied to the
base percentage. -/
def rescale (is_two_pass : Bool) (pass_number : Nat) (base : ℚ) : ℚ :=
  if is_two_pass then
    if pass_number = 1 then base * (1 / 2) else 50 + base * (1 / 2)
  else base

/-- The method `_parse_ffmpeg_output` restricted to its observable effect: the value
delivered to the progress sink for one line, if any.  Mirrors the source:
nothing is delivered when the line is empty or no callback is set; a
delivery happens exactly when the time pattern matches and
`total_duration > 0`, and carries the clamped, rescaled percentage. -/
def parse_ffmpeg_output (line : String) (total_duration : ℚ)
    (is_two_pass : Bool) (pass_number : Nat) (callback_set : Bool) :
    Option ℚ :=
  if !callback_set || line = "" then none
  else
    match searchTime line.data with
    | some t =>
      if 0 < total_duration then
        some (pyClamp (rescale is_two_pass pass_number
          (t / total_duration * 100)))
      else none
    | none => none

/-- Sink deliveries produced by feeding a list of recovered lines through
`_parse_ffmpeg_output` for one pass. -/
def emissionsOfLines (lines : List String) (total_duration : ℚ)
    (is_two_pass : Bool) (pass_number : Nat) (callback_set : Bool) :
    List ℚ :=
  lines.filterMap
    (fun l => parse_ffmpeg_output l total_duration is_two_pass pass_number callback_set)

/-- Timestamp samples carried by a list of lines, in stream order. -/
def timesOfLines (lines : List String) : List ℚ :=
  lines.filterMap (fun l => searchTime l.data)

/-! ### Line recovery from the diagnostic channel
(`_monitor_progress`, compressor.py lines 514-519)

```
while b"\n" in buffer or b"\r" in buffer:
    if b"\n" in buffer:
        line, buffer = buffer.split(b"\n", 1)
    else:
        line, buffer = buffer.split(b"\r", 1)
```
-/

/-- Python `buffer.split(delim, 1)`: the segment before the first occurrence of
`c` and the remainder after it (the whole input and `[]` when `c` is
absent, a case the caller has excluded). -/
def splitFirst (c : Char) : List Char → List Char × List Char
  | [] => ([], [])
  | x :: xs =>
    if x = c then ([], xs)
    else
      let p := splitFirst c xs
      (x :: p.1, p.2)

theorem splitFirst_snd_length_lt (c : Char) (l : List Char) (h : c ∈ l) :
    (splitFirst c l).2.length < l.length := by
  induction l with
  | nil => cases h
  | cons x xs ih =>
    by_cases hx : x = c
    · simp [splitFirst, hx]
    · have hm : c ∈ xs := by
        cases h with
        | head => exact absurd rfl hx
        | tail _ h2 => exact h2
      simp only [splitFirst, if_neg hx]
      exact Nat.lt_trans (ih hm) (by simp)

/-- The drain loop of `_monitor_progress`: extract complete lines from the
accumulated buffer, preferring a split at the first `\n` whenever any
newline is present, otherwise splitting at the first `\r`; the trailing
delimiter-free fragment is returned as the retained buffer. -/
def extractLines (buf : List Char) : List (List Char) × List Char :=
  if h1 : '\n' ∈ buf then
    let _ := h1
    let rest := extractLines (splitFirst '\n' buf).2
    ((splitFirst '\n' buf).1 :: rest.1, rest.2)
  else if h2 : '\r' ∈ buf then
    let _ := h2
    let rest := extractLines (splitFirst '\r' buf).2
    ((splitFirst '\r' buf).1 :: rest.1, rest.2)
  else ([], buf)
  termination_by buf.length
  decreasing_by
  · exact splitFirst_snd_length_lt '\n' buf h1
  · exact splitFirst_snd_length_lt '\r' buf h2

/-! ### Pass Runner and Job Supervisor
(`compress_video`, `_single_pass_encode`, `_two_pass_encode`,
`_cleanup_pass_files`; compressor.py lines 236-417 and 597-605)

The environment abstracts what the outside world answers to each effect
the supervisor performs, in the order the source performs them; the trace
records the externally observable behaviour of one `compress_video`
invocation. -/

/-- One invocation's external world: filesystem answers, the probe's
outcome (`none` models `get_video_info` raising), whether each `Popen`
spawn succeeds, and per-pass recovered diagnostic lines and exit code.
For a single-pass job only the `pass1` components are consulted. -/
structure JobEnv where
  inputExists : Bool
  outputExists : Bool
  probeResult : Option VideoInfo
  spawn1Ok : Bool
  spawn2Ok : Bool
  pass1Lines : List String
  pass1Exit : Int
  pass2Lines : List String
  pass2Exit : Int
  deriving Repr

/-- Observable trace of one `compress_video` call: whether the Media
Probe ran, which passes were spawned, every value delivered to the
progress sink in order, and whether `_cleanup_pass_files` was invoked. -/
structure JobTrace where
  probeCalled : Bool
  spawnedPasses : List Nat
  emissions : List ℚ
  cleanupCalled : Bool
  deriving DecidableEq, Repr

/-- The method `VideoCompressor.compress_video` (with `_single_pass_encode` and
`_two_pass_encode` inlined), as outcome plus observable trace.  Mirrors
the source's control flow:
* missing input / pre-existing output without `overwrite` / probe failure
  raise, are caught by the top-level handler, and yield `False`;
* a failed spawn raises inside the encode helper, is caught there, and
  yields `False` (for pass 2, before `_cleanup_pass_files` is reached);
* two-pass: pass 1 non-zero exit returns `False` with no cleanup; after
  pass 2 is waited on, cleanup always runs, then the exit code decides;
* on success the sink explicitly receives `100` (when a callback is set);
* single-pass never calls `_cleanup_pass_files`. -/
def compress_video (env : JobEnv) (s : CompressionSettings)
    (overwrite callback_set : Bool) : Bool × JobTrace :=
  if !env.inputExists then
    (false, { probeCalled := false, spawnedPasses := [], emissions := [],
              cleanupCalled := false })
  else if env.outputExists && !overwrite then
    (false, { probeCalled := false, spawnedPasses := [], emissions := [],
              cleanupCalled := false })
  else
    match env.probeResult with
    | none =>
      (false, { probeCalled := true, spawnedPasses := [], emissions := [],
                cleanupCalled := false })
    | some info =>
      if s.two_pass then
        if !env.spawn1Ok then
          (false, { probeCalled := true, spawnedPasses := [], emissions := [],
                    cleanupCalled := false })
        else
          let e1 := emissionsOfLines env.pass1Lines info.duration true 1 callback_set
          if env.pass1Exit ≠ 0 then
            (false, { probeCalled := true, spawnedPasses := [1],
                      emissions := e1, cleanupCalled := false })
          else if !env.spawn2Ok then
            (false, { probeCalled := true, spawnedPasses := [1],
                      emissions := e1, cleanupCalled := false })
          else
            let e2 := emissionsOfLines env.pass2Lines info.duration true 2 callback_set
            if env.pass2Exit = 0 then
              (true, { probeCalled := true, spawnedPasses := [1, 2],
                       emissions := e1 ++ e2 ++ (if callback_set then [100] else []),
                       cleanupCalled := true })
            else
              (false, { probeCalled := true, spawnedPasses := [1, 2],
                        emissions := e1 ++ e2, cleanupCalled := true })
      else
        if !env.spawn1Ok then
          (false, { probeCalled := true, spawnedPasses := [], emissions := [],
                    cleanupCalled := false })
        else
          let e1 := emissionsOfLines env.pass1Lines info.duration false 1 callback_set
          if env.pass1Exit = 0 then
            (true, { probeCalled := true, spawnedPasses := [1],
                     emissions := e1 ++ (if callback_set then [100] else []),
                     cleanupCalled := false })
          else
            (false, { probeCalled := true, spawnedPasses := [1],
                      emissions := e1, cleanupCalled := false })

/-! ### Command Builder
(compressor.py lines 290-298 and 419-467) -/

/-- Shape of the single-pass output video stream built at
compressor.py lines 290-298: scaled with explicit dimensions, scaled with
a named filter string, or unfiltered. -/
inductive VideoStreamSpec where
  | scaled (w h : Int)
  | scaledNamed (f : String)
  | plain
  deriving DecidableEq, Repr

/-- Python truthiness of an `Optional[int]` (`None` and `0` are falsy). -/
def truthyOptInt : Option Int → Bool
  | none => false
  | some i => i != 0

/-- Python truthiness of an `Optional[str]` (`None` and `""` are falsy). -/
def truthyOptStr : Option String → Bool
  | none => false
  | some s => s != ""

/-- The scaling decision of `compress_video` (lines 290-298):
`if settings.width and settings.height: ... elif settings.scale_filter:
... else: ...`. -/
def selectVideoStream (s : CompressionSettings) : VideoStreamSpec :=
  if truthyOptInt s.width && truthyOptInt s.height then
    VideoStreamSpec.scaled (s.width.getD 0) (s.height.getD 0)
  else if truthyOptStr s.scale_filter then
    VideoStreamSpec.scaledNamed (s.scale_filter.getD "")
  else
    VideoStreamSpec.plain

/-- Does `needle` occur as a contiguous substring of `hay`?  (Python's
`in` on strings, used to state the absence of a scale filter in a
command's tokens.) -/
def containsSub (needle : List Char) : List Char → Bool
  | [] => (matchLiteral needle []).isSome
  | x :: xs => (matchLiteral needle (x :: xs)).isSome || containsSub needle xs

/-- The method `_build_pass1_command` (compressor.py lines 419-440), verbatim. -/
def build_pass1_command (ffmpeg_path input_path : String)
    (s : CompressionSettings) : List String :=
  [ffmpeg_path, "-y", "-i", input_path,
   "-c:v", s.video_codec,
   "-preset", s.preset,
   "-crf", toString s.crf,
   "-pass", "1",
   "-f", "null", "-"]

/-- The method `_build_pass2_command` (compressor.py lines 442-467), verbatim. -/
def build_pass2_command (ffmpeg_path input_path output_path : String)
    (s : CompressionSettings) : List String :=
  [ffmpeg_path, "-y", "-i", input_path,
   "-c:v", s.video_codec,
   "-preset", s.preset,
   "-crf", toString s.crf,
   "-pass", "2",
   "-c:a", s.audio_codec,
   "-b:a", s.audio_bitrate,
   "-f", s.container_format,
   output_path]

/-! ### Parser-level lemmas -/

theorem pyClamp_nonneg (x : ℚ) : 0 ≤ pyClamp x := by
  rw [pyClamp_eq]; exact le_max_left 0 _

theorem pyClamp_le_99 (x : ℚ) : pyClamp x ≤ 99 := by
  rw [pyClamp_eq]; exact max_le (by norm_num) (min_le_left _ _)

theorem pyClamp_mono {x y : ℚ} (h : x ≤ y) : pyClamp x ≤ pyClamp y := by
  rw [pyClamp_eq, pyClamp_eq]
  exact max_le_max le_rfl (min_le_min le_rfl h)

theorem rescale_mono (tp : Bool) (pn : Nat) {x y : ℚ} (h : x ≤ y) :
    rescale tp pn x ≤ rescale tp pn y := by
  unfold rescale
  split
  · split
    · linarith
    · linarith
  · exact h

/-- When a callback is set and the duration is positive,
`_parse_ffmpeg_output` is exactly the time-pattern search composed with
rescaling and clamping. -/
theorem parse_ffmpeg_output_eq_map (line : String) (td : ℚ)
    (tp : Bool) (pn : Nat) (htd : 0 < td) :
    parse_ffmpeg_output line td tp pn true =
      (searchTime line.data).map
        (fun t => pyClamp (rescale tp pn (t / td * 100))) := by
  by_cases hl : line = ""
  · subst hl
    rfl
  · simp only [parse_ffmpeg_output, Bool.not_true, Bool.false_or,
      decide_eq_true_eq]
    rw [if_neg hl]
    cases h : searchTime line.data with
    | none => simp
    | some t => simp [htd]

/-- Every value `_parse_ffmpeg_output` delivers is a clamped value. -/
theorem parse_ffmpeg_output_some {line : String} {td v : ℚ}
    {tp : Bool} {pn : Nat} {cb : Bool}
    (h : parse_ffmpeg_output line td tp pn cb = some v) :
    ∃ t, searchTime line.data = some t ∧ 0 < td ∧
      v = pyClamp (rescale tp pn (t / td * 100)) := by
  unfold parse_ffmpeg_output at h
  split at h
  · exact absurd h (by simp)
  · split at h
    next t hs =>
      split at h
      · exact ⟨t, hs, by assumption, by simpa using h.symm⟩
      · exact absurd h (by simp)
    next hs => exact absurd h (by simp)

/-- Delivered values are within `[0, 99]`. -/
theorem mem_emissionsOfLines_bounds {lines : List String} {td v : ℚ}
    {tp : Bool} {pn : Nat} {cb : Bool}
    (h : v ∈ emissionsOfLines lines td tp pn cb) : 0 ≤ v ∧ v ≤ 99 := by
  obtain ⟨l, _, hp⟩ := List.mem_filterMap.mp h
  obtain ⟨t, _, _, hv⟩ := parse_ffmpeg_output_some hp
  exact hv ▸ ⟨pyClamp_nonneg _, pyClamp_le_99 _⟩

/-- The value `100` is never delivered from inside a pass. -/
theorem not_100_mem_emissionsOfLines (lines : List String) (td : ℚ)
    (tp : Bool) (pn : Nat) (cb : Bool) :
    (100 : ℚ) ∉ emissionsOfLines lines td tp pn cb := by
  intro h
  have := (mem_emissionsOfLines_bounds h).2
  norm_num at this

/-! ### Job-level lemmas -/

/-- Structure of one job's sink deliveries: every delivery before the
final one comes from a pass and lies in `[0, 99]`; on success (with a
callback set) the trailing delivery is the explicit `100`, and every
configured pass has exited zero. -/
theorem compress_video_emissions_spec (env : JobEnv)
    (s : CompressionSettings) (ow : Bool) :
    ∃ pre : List ℚ, (∀ v ∈ pre, 0 ≤ v ∧ v ≤ 99) ∧
      ((compress_video env s ow true).1 = true →
         (compress_video env s ow true).2.emissions = pre ++ [100] ∧
         env.pass1Exit = 0 ∧
         (s.two_pass = true → env.spawn2Ok = true ∧ env.pass2Exit = 0)) ∧
      ((compress_video env s ow true).1 = false →
         (compress_video env s ow true).2.emissions = pre) := by
  unfold compress_video
  split
  · exact ⟨[], by simp, by simp, by simp⟩
  · split
    · exact ⟨[], by simp, by simp, by simp⟩
    · split
      · exact ⟨[], by simp, by simp, by simp⟩
      · rename_i info _
        split
        · -- two-pass
          rename_i htp
          split
          · exact ⟨[], by simp, by simp, by simp⟩
          · split
            · -- pass 1 exited non-zero
              exact ⟨emissionsOfLines env.pass1Lines info.duration true 1 true,
                fun v hv => mem_emissionsOfLines_bounds hv, by simp, by simp⟩
            · rename_i he1
              split
              · exact ⟨emissionsOfLines env.pass1Lines info.duration true 1 true,
                  fun v hv => mem_emissionsOfLines_bounds hv, by simp, by simp⟩
              · rename_i hs2
                split
                · -- overall success
                  rename_i he2
                  refine ⟨emissionsOfLines env.pass1Lines info.duration true 1 true ++
                      emissionsOfLines env.pass2Lines info.duration true 2 true,
                    ?_, ?_, by simp⟩
                  · intro v hv
                    rcases List.mem_append.mp hv with h | h <;>
                      exact mem_emissionsOfLines_bounds h
                  · intro _
                    exact ⟨by simp, not_not.mp he1,
                      fun _ => ⟨by simpa using hs2, he2⟩⟩
                · -- pass 2 exited non-zero
                  refine ⟨emissionsOfLines env.pass1Lines info.duration true 1 true ++
                      emissionsOfLines env.pass2Lines info.duration true 2 true,
                    ?_, by simp, by simp⟩
                  intro v hv
                  rcases List.mem_append.mp hv with h | h <;>
                    exact mem_emissionsOfLines_bounds h
        · -- single pass
          rename_i hnotp
          split
          · exact ⟨[], by simp, by simp, by simp⟩
          · split
            · -- success
              rename_i he1
              exact ⟨emissionsOfLines env.pass1Lines info.duration false 1 true,
                fun v hv => mem_emissionsOfLines_bounds hv,
                fun _ => ⟨by simp, he1, fun htp => absurd htp hnotp⟩,
                by simp⟩
            · exact ⟨emissionsOfLines env.pass1Lines info.duration false 1 true,
                fun v hv => mem_emissionsOfLines_bounds hv, by simp, by simp⟩

/-! ### Claim theorems -/

/-- C1 (counterexample): the Runner does not clamp against the previously
reported value — an out-of-order diagnostic line lowers the reported
percentage.  A single-pass job over a 100 s input whose diagnostic lines
report 10 s and then 5 s delivers `[10, 5, 100]` to the sink, which is
not monotonically non-decreasing. -/
theorem progress_can_decrease_counterexample :
    (compress_video
        { inputExists := true, outputExists := false,
          probeResult := some { duration := 100, width := 1920, height := 1080,
                                file_size := 1000000 },
          spawn1Ok := true, spawn2Ok := true,
          pass1Lines := ["time=00:00:10.00", "time=00:00:05.00"], pass1Exit := 0,
          pass2Lines := [], pass2Exit := 0 }
        {} false true).2.emissions = [10, 5, 100] ∧
    ¬ List.Chain' (· ≤ ·) ([10, 5, 100] : List ℚ) := by
  constructor
  · with_unfolding_all exact of_decide_eq_true rfl
  · simp only [List.chain'_cons]
    rintro ⟨h1, -⟩
    norm_num at h1

/-- C1 (amended): the per-sample clamp is only to `[0, 99]`, not to the
previously reported value, so the delivered sequence is monotonically
non-decreasing provided the timestamp samples of the diagnostic lines
arrive in non-decreasing order; an out-of-order line lowers the reported
percentage (see the counterexample). -/
theorem progress_monotone_of_ordered_samples (lines : List String)
    (td : ℚ) (tp : Bool) (pn : Nat) (htd : 0 < td)
    (hmono : List.Chain' (· ≤ ·) (timesOfLines lines)) :
    List.Chain' (· ≤ ·) (emissionsOfLines lines td tp pn true) := by
  have hfun : (fun l => parse_ffmpeg_output l td tp pn true) =
      (fun l => (searchTime l.data).map
        (fun t => pyClamp (rescale tp pn (t / td * 100)))) :=
    funext fun l => parse_ffmpeg_output_eq_map l td tp pn htd
  have hmap : emissionsOfLines lines td tp pn true =
      (timesOfLines lines).map
        (fun t => pyClamp (rescale tp pn (t / td * 100))) := by
    rw [emissionsOfLines, hfun, timesOfLines, List.map_filterMap]
  rw [hmap, List.chain'_map]
  refine hmono.imp ?_
  intro a b hab
  exact pyClamp_mono (rescale_mono tp pn (by gcongr))

theorem progress_monotone_of_ordered_samples_witness :
    (0 : ℚ) < 10 ∧
    List.Chain' (· ≤ ·)
      (timesOfLines ["time=00:00:01.00", "time=00:00:02.00"]) ∧
    List.Chain' (· ≤ ·)
      (emissionsOfLines ["time=00:00:01.00", "time=00:00:02.00"] 10 false 1 true) := by
  have ht : timesOfLines ["time=00:00:01.00", "time=00:00:02.00"] = [1, 2] := by
    with_unfolding_all exact of_decide_eq_true rfl
  have hc : List.Chain' (· ≤ ·)
      (timesOfLines ["time=00:00:01.00", "time=00:00:02.00"]) := by
    rw [ht]
    simp only [List.chain'_cons, List.chain'_singleton, and_true]
    norm_num
  exact ⟨by norm_num, hc,
    progress_monotone_of_ordered_samples _ 10 false 1 (by norm_num) hc⟩

/-- C2: with a callback set, every value delivered to the sink lies in
`[0, 100]`; `100` is delivered exactly once when the job succeeds and
never otherwise; every value delivered before the final `100` is strictly
below `100`; and success requires every configured pass to have exited
zero. -/
theorem progress_sink_contract (env : JobEnv) (s : CompressionSettings)
    (overwrite : Bool) :
    (∀ v ∈ (compress_video env s overwrite true).2.emissions,
       0 ≤ v ∧ v ≤ 100) ∧
    ((compress_video env s overwrite true).2.emissions.count 100 =
       if (compress_video env s overwrite true).1 then 1 else 0) ∧
    ((compress_video env s overwrite true).1 = true →
       ∃ pre, (compress_video env s overwrite true).2.emissions = pre ++ [100] ∧
         ∀ v ∈ pre, v < 100) ∧
    ((compress_video env s overwrite true).1 = false →
       ∀ v ∈ (compress_video env s overwrite true).2.emissions, v < 100) ∧
    ((compress_video env s overwrite true).1 = true →
       (s.two_pass = true → env.pass1Exit = 0 ∧ env.pass2Exit = 0) ∧
       (s.two_pass = false → env.pass1Exit = 0)) := by
  obtain ⟨pre, hb, hsucc, hfail⟩ := compress_video_emissions_spec env s overwrite
  have hpre100 : (100 : ℚ) ∉ pre := fun hm => by
    have := (hb _ hm).2; norm_num at this
  have hprelt : ∀ v ∈ pre, v < 100 := fun v hv =>
    lt_of_le_of_lt (hb v hv).2 (by norm_num)
  cases hok : (compress_video env s overwrite true).1 with
  | true =>
    obtain ⟨he, he1, htp2⟩ := hsucc hok
    refine ⟨?_, ?_, fun _ => ⟨pre, he, hprelt⟩, ?_, ?_⟩
    · rw [he]
      intro v hv
      rcases List.mem_append.mp hv with h | h
      · exact ⟨(hb v h).1, le_trans (hb v h).2 (by norm_num)⟩
      · rw [List.mem_singleton.mp h]; norm_num
    · rw [he]
      simp [List.count_append, List.count_eq_zero.mpr hpre100]
    · intro hcontra
      simp at hcontra
    · intro _
      refine ⟨fun htp => ⟨he1, (htp2 htp).2⟩, fun _ => he1⟩
  | false =>
    have he := hfail hok
    refine ⟨?_, ?_, ?_, fun _ => he ▸ hprelt, ?_⟩
    · rw [he]
      exact fun v hv => ⟨(hb v hv).1, le_trans (hb v hv).2 (by norm_num)⟩
    · rw [he]
      simp [List.count_eq_zero.mpr hpre100]
    · intro hcontra
      simp at hcontra
    · intro hcontra
      simp at hcontra

theorem progress_sink_contract_witness :
    ((compress_video
        { inputExists := true, outputExists := false,
          probeResult := some { duration := 100, width := 1920, height := 1080,
                                file_size := 1000000 },
          spawn1Ok := true, spawn2Ok := true,
          pass1Lines := ["time=00:00:10.00"], pass1Exit := 0,
          pass2Lines := [], pass2Exit := 0 }
        {} false true).1 = true →
      ∃ pre, (compress_video
        { inputExists := true, outputExists := false,
          probeResult := some { duration := 100, width := 1920, height := 1080,
                                file_size := 1000000 },
          spawn1Ok := true, spawn2Ok := true,
          pass1Lines := ["time=00:00:10.00"], pass1Exit := 0,
          pass2Lines := [], pass2Exit := 0 }
        {} false true).2.emissions = pre ++ [100] ∧ ∀ v ∈ pre, v < 100) :=
  (progress_sink_contract _ {} false).2.2.1

/-- C3 (counterexample): a two-pass job whose first pass exits with code 1
returns failure with pass 2 never spawned and no `100` delivered, but —
contrary to the claim — `_cleanup_pass_files` is *not* invoked on this
path. -/
theorem pass1_failure_no_cleanup_counterexample :
    compress_video
        { inputExists := true, outputExists := false,
          probeResult := some { duration := 10, width := 1920, height := 1080,
                                file_size := 1000000 },
          spawn1Ok := true, spawn2Ok := true,
          pass1Lines := [], pass1Exit := 1, pass2Lines := [], pass2Exit := 0 }
        { two_pass := true } false true =
      (false, { probeCalled := true, spawnedPasses := [1], emissions := [],
                cleanupCalled := false }) := by
  rfl

/-- C3 (amended): in two-pass mode, a non-zero exit of pass 1 aborts the
job with a failure outcome, pass 2 is never spawned and the sink never
receives `100`; however, no cleanup of the pass-log artifacts is
attempted on this path — `_cleanup_pass_files` runs only after pass 2
has been waited on. -/
theorem pass1_failure_aborts_without_cleanup (env : JobEnv)
    (s : CompressionSettings) (overwrite cb : Bool) (info : VideoInfo)
    (htp : s.two_pass = true) (hin : env.inputExists = true)
    (hout : env.outputExists = false ∨ overwrite = true)
    (hpr : env.probeResult = some info) (hs1 : env.spawn1Ok = true)
    (he1 : env.pass1Exit ≠ 0) :
    compress_video env s overwrite cb =
      (false, { probeCalled := true, spawnedPasses := [1],
                emissions := emissionsOfLines env.pass1Lines info.duration true 1 cb,
                cleanupCalled := false }) ∧
    (100 : ℚ) ∉ (compress_video env s overwrite cb).2.emissions := by
  have h1 : compress_video env s overwrite cb =
      (false, { probeCalled := true, spawnedPasses := [1],
                emissions := emissionsOfLines env.pass1Lines info.duration true 1 cb,
                cleanupCalled := false }) := by
    unfold compress_video
    rcases hout with h | h <;> simp [hin, h, hpr, htp, hs1, he1]
  refine ⟨h1, ?_⟩
  rw [h1]
  exact not_100_mem_emissionsOfLines _ _ _ _ _

theorem pass1_failure_aborts_without_cleanup_witness :
    compress_video
        { inputExists := true, outputExists := false,
          probeResult := some { duration := 10, width := 1280, height := 720,
                                file_size := 5000 },
          spawn1Ok := true, spawn2Ok := true,
          pass1Lines := ["time=00:00:02.00"], pass1Exit := 3,
          pass2Lines := [], pass2Exit := 0 }
        { two_pass := true } false true =
      (false, { probeCalled := true, spawnedPasses := [1],
                emissions := emissionsOfLines ["time=00:00:02.00"]
                  (10 : ℚ) true 1 true,
                cleanupCalled := false }) :=
  (pass1_failure_aborts_without_cleanup _ _ false true
    { duration := 10, width := 1280, height := 720, file_size := 5000 }
    rfl rfl (Or.inl rfl) rfl rfl (by decide)).1

/-- C4: when the output path already exists and the overwrite flag is
false, `compress_video` fails before any work is done: the Media Probe is
never called, no pass is spawned, and nothing is delivered to the sink. -/
theorem output_exists_blocks_before_probe (env : JobEnv)
    (s : CompressionSettings) (cb : Bool) (h : env.outputExists = true) :
    (compress_video env s false cb).1 = false ∧
    (compress_video env s false cb).2.probeCalled = false ∧
    (compress_video env s false cb).2.spawnedPasses = [] ∧
    (compress_video env s false cb).2.emissions = [] := by
  unfold compress_video
  cases hi : env.inputExists <;> simp [hi, h]

theorem output_exists_blocks_before_probe_witness :
    ({ inputExists := true, outputExists := true,
       probeResult := some { duration := 10, width := 1920, height := 1080,
                             file_size := 1000 },
       spawn1Ok := true, spawn2Ok := true, pass1Lines := [], pass1Exit := 0,
       pass2Lines := [], pass2Exit := 0 } : JobEnv).outputExists = true ∧
    (compress_video
        { inputExists := true, outputExists := true,
          probeResult := some { duration := 10, width := 1920, height := 1080,
                                file_size := 1000 },
          spawn1Ok := true, spawn2Ok := true, pass1Lines := [], pass1Exit := 0,
          pass2Lines := [], pass2Exit := 0 }
        {} false true).2.probeCalled = false :=
  ⟨rfl, (output_exists_blocks_before_probe _ {} true rfl).2.1⟩

/-- C5: for every diagnostic line carrying a timestamp sample `t`, with
raw base percentage `b = t / total_duration * 100`, the value delivered
to the sink equals `clamp(b*0.5, 0, 99)` during two-pass pass 1,
`clamp(50 + b*0.5, 0, 99)` during two-pass pass 2, and `clamp(b, 0, 99)`
in single-pass mode. -/
theorem rescaling_formula (line : String) (td t : ℚ)
    (h : searchTime line.data = some t) (htd : 0 < td) :
    parse_ffmpeg_output line td true 1 true =
      some (pyClamp (t / td * 100 * (1 / 2))) ∧
    parse_ffmpeg_output line td true 2 true =
      some (pyClamp (50 + t / td * 100 * (1 / 2))) ∧
    parse_ffmpeg_output line td false 1 true =
      some (pyClamp (t / td * 100)) := by
  refine ⟨?_, ?_, ?_⟩ <;>
    rw [parse_ffmpeg_output_eq_map _ _ _ _ htd, h] <;> simp [rescale]

theorem rescaling_formula_witness :
    searchTime "time=00:00:05.00".data = some 5 ∧ (0 : ℚ) < 10 ∧
    (parse_ffmpeg_output "time=00:00:05.00" 10 true 1 true =
       some (pyClamp ((5 : ℚ) / 10 * 100 * (1 / 2))) ∧
     parse_ffmpeg_output "time=00:00:05.00" 10 true 2 true =
       some (pyClamp (50 + (5 : ℚ) / 10 * 100 * (1 / 2))) ∧
     parse_ffmpeg_output "time=00:00:05.00" 10 false 1 true =
       some (pyClamp ((5 : ℚ) / 10 * 100))) :=
  ⟨by with_unfolding_all exact of_decide_eq_true rfl, by norm_num,
   rescaling_formula "time=00:00:05.00" 10 5
     (by with_unfolding_all exact of_decide_eq_true rfl) (by norm_num)⟩

/-- C6: the Progress Parser is total: for every input string it yields
either a sample or nothing.  (Exceptions are modelled by `Option`: the
numeric conversions that can raise in the source return `none` here, and
`parse_line` is a total function on all of `String`.) -/
theorem parser_total (line : String) :
    (∃ smp, parse_line line = some smp) ∨ parse_line line = none := by
  cases h : parse_line line with
  | some smp => exact Or.inl ⟨smp, rfl⟩
  | none => exact Or.inr rfl

/-- The segment before the first occurrence of `c` never contains `c`. -/
theorem not_mem_splitFirst_fst (c : Char) (l : List Char) :
    c ∉ (splitFirst c l).1 := by
  induction l with
  | nil => simp [splitFirst]
  | cons x xs ih =>
    by_cases hx : x = c
    · simp [splitFirst, hx]
    · simp only [splitFirst, if_neg hx, List.mem_cons]
      rintro (h | h)
      · exact hx h.symm
      · exact ih h

/-- The extracted segment only contains characters of the buffer. -/
theorem mem_of_mem_splitFirst_fst {c x : Char} {l : List Char}
    (h : x ∈ (splitFirst c l).1) : x ∈ l := by
  induction l with
  | nil => simp [splitFirst] at h
  | cons y ys ih =>
    by_cases hy : y = c
    · simp [splitFirst, hy] at h
    · simp only [splitFirst, if_neg hy, List.mem_cons] at h
      rcases h with h | h
      · exact h ▸ List.mem_cons_self _ _
      · exact List.mem_cons_of_mem _ (ih h)

/-- C7 (counterexample): the drain loop prefers the first `\n` whenever a
newline is present anywhere in the buffer, even when a `\r` occurs
earlier, so the recovered line is not delimiter-free: on the buffer
`"a\rb\nc"` the single extracted line is `"a\rb"`, which contains `\r`
(the trailing fragment `"c"` is retained). -/
theorem line_recovery_counterexample :
    (extractLines ['a', '\r', 'b', '\n', 'c']).1 = [['a', '\r', 'b']] ∧
    (extractLines ['a', '\r', 'b', '\n', 'c']).2 = ['c'] ∧
    '\r' ∈ (['a', '\r', 'b'] : List Char) := by
  refine ⟨?_, ?_, by decide⟩ <;> simp +decide [extractLines, splitFirst]

/-- C7 (amended): the drain loop extracts a segment whenever the buffer
holds a delimiter, splitting at the first `\n` if any newline is present
(even when a `\r` precedes it) and at the first `\r` otherwise.  Hence
extracted lines never contain `\n` — but may contain `\r` (see the
counterexample) — and the retained trailing fragment contains neither
delimiter. -/
theorem line_recovery_amended (buf : List Char) :
    (∀ l ∈ (extractLines buf).1, '\n' ∉ l) ∧
    '\n' ∉ (extractLines buf).2 ∧ '\r' ∉ (extractLines buf).2 := by
  induction buf using extractLines.induct with
  | case1 buf h1 ih =>
    rw [extractLines, dif_pos h1]
    obtain ⟨ih1, ih2, ih3⟩ := ih
    refine ⟨?_, ih2, ih3⟩
    intro l hl
    rcases List.mem_cons.mp hl with h | h
    · exact h ▸ not_mem_splitFirst_fst '\n' buf
    · exact ih1 l h
  | case2 buf h1 h2 ih =>
    rw [extractLines, dif_neg h1, dif_pos h2]
    obtain ⟨ih1, ih2, ih3⟩ := ih
    refine ⟨?_, ih2, ih3⟩
    intro l hl
    rcases List.mem_cons.mp hl with h | h
    · subst h
      intro hmem
      exact h1 (mem_of_mem_splitFirst_fst hmem)
    · exact ih1 l h
  | case3 buf h1 h2 =>
    rw [extractLines, dif_neg h1, dif_neg h2]
    exact ⟨by simp, h1, h2⟩

theorem line_recovery_amended_witness :
    '\n' ∉ (extractLines ['a', '\n', 'b', '\r']).2 ∧
    '\r' ∉ (extractLines ['a', '\n', 'b', '\r']).2 :=
  (line_recovery_amended ['a', '\n', 'b', '\r']).2

/-- C8 (counterexample): with `width = 1280`, `height = 720` and two-pass
mode, neither pass command contains any scale filter: the scaling
settings are ignored by `_build_pass1_command` and `_build_pass2_command`. -/
theorem scale_filter_two_pass_counterexample :
    (({ width := some 1280, height := some 720, two_pass := true } :
        CompressionSettings).width = some 1280) ∧
    (({ width := some 1280, height := some 720, two_pass := true } :
        CompressionSettings).height = some 720) ∧
    (build_pass1_command "ffmpeg" "in.mkv"
        { width := some 1280, height := some 720, two_pass := true }).all
      (fun a => !(containsSub "scale".data a.data)) = true ∧
    (build_pass2_command "ffmpeg" "in.mkv" "out.mkv"
        { width := some 1280, height := some 720, two_pass := true }).all
      (fun a => !(containsSub "scale".data a.data)) = true := by
  refine ⟨rfl, rfl, ?_, ?_⟩ <;> decide

/-- C8 (amended): on the single-pass filter-graph path the claim holds:
settings with both dimensions set (and nonzero, per Python truthiness)
yield a scale filter with exactly those two integers, and settings with
both unset and no named filter string yield no scale filter; the
two-pass pass commands, however, are independent of `width`, `height`
and `scale_filter` and never gain a scale filter. -/
theorem scale_filter_amended :
    (∀ s : CompressionSettings, ∀ w h : Int,
       s.width = some w → s.height = some h → w ≠ 0 → h ≠ 0 →
       selectVideoStream s = VideoStreamSpec.scaled w h) ∧
    (∀ s : CompressionSettings,
       s.width = none → s.height = none → s.scale_filter = none →
       selectVideoStream s = VideoStreamSpec.plain) ∧
    (∀ fp ip op : String, ∀ s : CompressionSettings,
       ∀ w h : Option Int, ∀ sf : Option String,
       build_pass1_command fp ip
           { s with width := w, height := h, scale_filter := sf } =
         build_pass1_command fp ip s ∧
       build_pass2_command fp ip op
           { s with width := w, height := h, scale_filter := sf } =
         build_pass2_command fp ip op s) := by
  refine ⟨?_, ?_, ?_⟩
  · intro s w h hw hh hw0 hh0
    simp [selectVideoStream, truthyOptInt, hw, hh, hw0, hh0]
  · intro s hw hh hsf
    simp [selectVideoStream, truthyOptInt, truthyOptStr, hw, hh, hsf]
  · intro fp ip op s w h sf
    exact ⟨rfl, rfl⟩

theorem scale_filter_amended_witness :
    selectVideoStream { width := some 1280, height := some 720 } =
      VideoStreamSpec.scaled 1280 720 ∧
    selectVideoStream {} = VideoStreamSpec.plain :=
  ⟨scale_filter_amended.1 { width := some 1280, height := some 720 }
      1280 720 rfl rfl (by decide) (by decide),
   scale_filter_amended.2.1 {} rfl rfl rfl⟩

/-- C9: `compress_video` always returns a boolean verdict (the top-level
`except` of the source converts every raised error into `False`): it
yields `True` exactly when every precondition and every configured step
succeeds, so each failure mode — missing input, pre-existing output
without overwrite, probe failure, failed spawn, non-zero pass exit —
surfaces as the return value `False`. -/
theorem compress_video_boolean_outcome (env : JobEnv)
    (s : CompressionSettings) (overwrite cb : Bool) :
    (compress_video env s overwrite cb).1 = true ↔
      (env.inputExists = true ∧
       (env.outputExists = true → overwrite = true) ∧
       (∃ info, env.probeResult = some info) ∧
       env.spawn1Ok = true ∧ env.pass1Exit = 0 ∧
       (s.two_pass = true → env.spawn2Ok = true ∧ env.pass2Exit = 0)) := by
  unfold compress_video
  cases hin : env.inputExists <;>
  cases hout : env.outputExists <;>
  cases how : overwrite <;>
  cases hpr : env.probeResult <;>
  cases htp : s.two_pass <;>
  cases hs1 : env.spawn1Ok <;>
  cases hs2 : env.spawn2Ok <;>
  by_cases he1 : env.pass1Exit = 0 <;>
  by_cases he2 : env.pass2Exit = 0 <;>
  simp [hin, hout, how, hpr, htp, hs1, hs2, he1, he2]

theorem compress_video_boolean_outcome_witness :
    (compress_video
        { inputExists := false, outputExists := false, probeResult := none,
          spawn1Ok := true, spawn2Ok := true, pass1Lines := [], pass1Exit := 0,
          pass2Lines := [], pass2Exit := 0 }
        {} false true).1 = false := by
  have h := compress_video_boolean_outcome
    { inputExists := false, outputExists := false, probeResult := none,
      spawn1Ok := true, spawn2Ok := true, pass1Lines := [], pass1Exit := 0,
      pass2Lines := [], pass2Exit := 0 }
    {} false true
  cases hr : (compress_video
      { inputExists := false, outputExists := false, probeResult := none,
        spawn1Ok := true, spawn2Ok := true, pass1Lines := [], pass1Exit := 0,
        pass2Lines := [], pass2Exit := 0 }
      {} false true).1
  · rfl
  · obtain ⟨hcontra, -⟩ := h.mp hr
    cases hcontra

/-- C10: serialising settings to a dictionary and reconstructing them is
the identity. -/
theorem settings_dict_round_trip (s : CompressionSettings) :
    from_dict (to_dict s) = some s := by
  obtain ⟨vc, crf, pre, ac, ab, w, h, sf, tp, ts, mb, cf⟩ := s
  cases w <;> cases h <;> cases sf <;> cases ts <;> cases mb <;> rfl

end MkvCompressor
